import Mathlib

/-!
Verification of the YouTube dashboard repository (`src/dashboard.py`) against
its specification.  Pure fragments of the Python source are embedded as Lean
functions; components that the specification describes but that are absent
from the source tree are modelled from the specification's words and marked
as such in their doc comments.
-/

namespace Dashboard

/-! ## Python scalar values

`extract_youtube_id` receives a cell of a pandas column: either a missing
value (NaN, detected by `pd.isna`) or a value converted to a string by
`str(url)`.  We model that scalar domain directly. -/

inductive PyScalar where
  | nan
  | str (s : String)

/-- Word characters of the regex character class `[\w-]` (ASCII reading of
Python's `\w`, plus the literal hyphen). -/
def isWordChar (c : Char) : Bool :=
  c.isAlpha || c.isDigit || c = '_' || c = '-'

/-- Leftmost match of the regex `(?<=v=)[\w-]+` on a character list:
the scanner stops at the first position preceded by the two characters
`v=` and starting with a `[\w-]` character, and returns the maximal
`[\w-]` run from there. -/
def searchWatch : List Char → Option (List Char)
  | c1 :: c2 :: rest =>
      if c1 = 'v' && c2 = '=' && !(rest.takeWhile isWordChar).isEmpty then
        some (rest.takeWhile isWordChar)
      else searchWatch (c2 :: rest)
  | _ => none

/-- Attempt of the regex `(?:youtu\.be\/|embed\/)([\w-]+)` at one fixed
start position: the first alternative is tried first, and the captured
group must be non-empty. -/
def tryShortAt (cs : List Char) : Option (List Char) :=
  if ("youtu.be/".toList).isPrefixOf cs then
    let run := (cs.drop 9).takeWhile isWordChar
    if run.isEmpty then none else some run
  else if ("embed/".toList).isPrefixOf cs then
    let run := (cs.drop 6).takeWhile isWordChar
    if run.isEmpty then none else some run
  else none

/-- Leftmost match of the regex `(?:youtu\.be\/|embed\/)([\w-]+)`:
scan positions left to right, returning the first successful attempt. -/
def searchShort : List Char → Option (List Char)
  | [] => none
  | c :: rest =>
      match tryShortAt (c :: rest) with
      | some m => some m
      | none => searchShort rest

/-- Embedding of `extract_youtube_id` (src/dashboard.py):
`None` on NaN, else the first `(?<=v=)[\w-]+` match, else the captured
group of the first `(?:youtu\.be\/|embed\/)([\w-]+)` match, else `None`. -/
def extract_youtube_id : PyScalar → Option String
  | .nan => none
  | .str url =>
      match searchWatch url.toList with
      | some m => some (String.mk m)
      | none =>
          match searchShort url.toList with
          | some m => some (String.mk m)
          | none => none

/-! ## QuickWatch row removal

`remove_from_quickwatch` loads all records of the quickwatch worksheet
(`get_all_records`, i.e. every physical row below the header row), scans
them for the first record whose `video_id` stringifies to the requested
id, and deletes the corresponding physical row (`i + 2`, 1-indexed, row 1
being the header).  A sheet is modelled as the list of the per-row
`str(row.get("video_id"))` values, the header row included at index 0. -/

/-- The Python `for i, row in enumerate(all_rows): ... break` loop computing
`row_to_delete`: the physical row number `i + 2` of the first matching
record, or `None`. -/
def rowToDeleteLoop (vid : String) : List String → Nat → Option Nat
  | [], _ => none
  | r :: rest, i => if r = vid then some (i + 2) else rowToDeleteLoop vid rest (i + 1)

/-- Embedding of the `row_to_delete` computation of `remove_from_quickwatch`. -/
def row_to_delete (records : List String) (vid : String) : Option Nat :=
  rowToDeleteLoop vid records 0

/-- Embedding of gspread `delete_rows(n)`: removes the 1-indexed physical
row `n` of the sheet. -/
def delete_rows (sheet : List String) (n : Nat) : List String :=
  sheet.eraseIdx (n - 1)

/-- Embedding of `remove_from_quickwatch` (src/dashboard.py): the records
are the sheet rows below the header; the Python truthiness test
`if row_to_delete:` treats both `None` and `0` as false (only the former
can occur, since the computed row number is always `i + 2 ≥ 2`).  The
boolean result records whether the not-found warning was shown. -/
def remove_from_quickwatch (sheet : List String) (vid : String) : List String × Bool :=
  match row_to_delete (sheet.drop 1) vid with
  | some n => if n = 0 then (sheet, true) else (delete_rows sheet n, false)
  | none => (sheet, true)

/-! ## Zendesk ticket creation

`create_zendesk_ticket` (src/dashboard.py) first checks the static
configuration and returns an error tuple without touching the network if
the subdomain or email is empty or the API token is still the placeholder;
otherwise it performs one `requests.post` and succeeds exactly on HTTP
status 201, returning `(True, response.json())`, and returns
`(False, response.text)` on every other status. -/

/-- Alphabet of standard base64. -/
def base64Alphabet : List Char :=
  "ABCDEFGHIJKLMNOPQRSTUVWXYZabcdefghijklmnopqrstuvwxyz0123456789+/".toList

/-- Digit of standard base64 for a 6-bit value. -/
def b64Digit (n : Nat) : Char :=
  base64Alphabet.getD n 'A'

/-- Standard base64 of a byte list, with `=` padding, as in Python's
`base64.b64encode`. -/
def base64EncodeBytes : List UInt8 → List Char
  | [] => []
  | [a] =>
      let x := a.toNat
      [b64Digit (x / 4), b64Digit (x % 4 * 16), '=', '=']
  | [a, b] =>
      let x := a.toNat
      let y := b.toNat
      [b64Digit (x / 4), b64Digit (x % 4 * 16 + y / 16), b64Digit (y % 16 * 4), '=']
  | a :: b :: c :: rest =>
      let x := a.toNat
      let y := b.toNat
      let z := c.toNat
      b64Digit (x / 4) :: b64Digit (x % 4 * 16 + y / 16) ::
        b64Digit (y % 16 * 4 + z / 64) :: b64Digit (z % 64) :: base64EncodeBytes rest

/-- Base64 of the UTF-8 encoding of a string (`base64.b64encode(s.encode("utf-8"))`). -/
def base64Encode (s : String) : String :=
  String.mk (base64EncodeBytes s.toUTF8.toList)

/-- Embedding of the Authorization header built by `create_zendesk_ticket`
(src/dashboard.py): `auth_str = f"{ZENDESK_EMAIL}/token:{ZENDESK_API_TOKEN}"`,
base64-encoded and prefixed with `Basic `. -/
def create_zendesk_auth_header (email token : String) : String :=
  "Basic " ++ base64Encode (email ++ "/token:" ++ token)

/-- HTTP Basic authentication header for a username/password pair. -/
def basicAuthHeader (username password : String) : String :=
  "Basic " ++ base64Encode (username ++ ":" ++ password)

/-- Static Zendesk configuration read from Streamlit secrets. -/
structure ZendeskConfig where
  subdomain : String
  email : String
  apiToken : String
deriving DecidableEq

/-- Truthiness guard of `create_zendesk_ticket`: config is unusable when
the subdomain or email is empty (falsy) or the token is the placeholder. -/
def zendeskConfigMissing (c : ZendeskConfig) : Bool :=
  c.subdomain = "" || c.email = "" || c.apiToken = "TO_BE_ADDED_BY_ADMIN"

/-- Response of one HTTP call, as seen by the Python code: a status code,
the parsed JSON body (`response.json()`) and the raw text (`response.text`). -/
structure HttpResponse where
  status : Nat
  jsonBody : String
  text : String
deriving DecidableEq

/-- Embedding of `create_zendesk_ticket` (src/dashboard.py).  `post` is the
`requests.post` collaborator; the second component counts the network
calls performed.  The config guard returns before any network call; the
response handling succeeds exactly on status 201 and otherwise returns
`(False, response.text)` uniformly, with no inspection of the status
class. -/
def create_zendesk_ticket (c : ZendeskConfig) (post : Unit → HttpResponse) :
    (Bool × String) × Nat :=
  if zendeskConfigMissing c then
    ((false, "Zendesk API token not set. Please ask your admin."), 0)
  else
    let r := post ()
    (if r.status = 201 then (true, r.jsonBody) else (false, r.text), 1)

/-! ## Round-robin assignment subsystem

The specification's allocator / batching utility / dispatcher / reporter
triad is not present in the source tree; the definitions below are
modelled from the specification's words (§4 and §6 of spec.md). -/

/-- Modelled from the spec: the ticket positions the Round-Robin Allocator
(§4.2) sends to the agent at index `j` — exactly the fetch positions `i`
with `i % N = j`, in fetch order. -/
def bucketIdxs (T N j : Nat) : List Nat :=
  (List.range T).filter (fun i => i % N == j)

/-- Modelled from the spec: the bucket of the agent at index `j` produced
by the Round-Robin Allocator (§4.2) — the tickets at positions `i` with
`i % N = j`, in fetch order. -/
def bucketSpec (ts : List Nat) (N j : Nat) : List Nat :=
  (bucketIdxs ts.length N j).map (fun i => ts.getD i 0)

/-- Modelled from the spec: `allocate(ticket_ids, agent_ids)` (§4.2),
the mapping from each agent (in list order) to its bucket. -/
def allocate (ts agents : List Nat) : List (Nat × List Nat) :=
  (List.range agents.length).map (fun j => (agents.getD j 0, bucketSpec ts agents.length j))

/-- Modelled from the spec: the Distribution Reporter's `expected_count`
(§4.5) for the agent at index `j`: `base = total // N`,
`remainder = total % N`, the first `remainder` agents receive `base + 1`,
the rest receive `base`. -/
def expected_count (total N j : Nat) : Nat :=
  if j < total % N then total / N + 1 else total / N

/-- Modelled from the spec: the Batching Utility `chunk` (§4.3) for a
positive size — consecutive groups of `size` elements, the last possibly
shorter. -/
def chunkList (size : Nat) : List Nat → List (List Nat)
  | [] => []
  | x :: rest => (x :: rest.take (size - 1)) :: chunkList size (rest.drop (size - 1))
termination_by l => l.length
decreasing_by
  simp only [List.length_drop, List.length_cons]
  omega

/-- Outcome of one bulk-update call recorded by the Bulk Update Dispatcher:
a job handle on success, an error-tagged entry on failure. -/
inductive JobEntry where
  | job (handle : String)
  | err (detail : String)
deriving DecidableEq

/-- Modelled from the spec: the Bulk Update Dispatcher (§4.4) as a
result-collecting loop — one upstream call per chunk, recording a job
handle or an error-tagged entry and always continuing with the remaining
chunks. -/
def dispatch_chunks (chunks : List (List Nat))
    (upstream : List Nat → Except String String) : List JobEntry :=
  chunks.map (fun c =>
    match upstream c with
    | .ok h => .job h
    | .error e => .err e)

/-- Simulated upstream that fails on the chunk `[2]` (the 2nd of the three
chunks `[[1], [2], [3]]`) and succeeds elsewhere. -/
def failSecondUpstream (c : List Nat) : Except String String :=
  if c = [2] then .error "boom" else .ok "job-url"

/-- Fatal errors of the entry point (§6/§7): only missing configuration
and rejected credentials are raised; everything else is embedded in the
run result. -/
inductive FatalError where
  | configError (msg : String)
  | authError (msg : String)
deriving DecidableEq

/-- Modelled from the spec: the Run Result record (§3). -/
structure RunResult where
  total : Nat
  distribution : List (Nat × Nat)
  jobs : List (Nat × JobEntry)
deriving DecidableEq

/-- Outcome of the paginated ticket-list fetch, as seen by the entry
point: the full ticket-id list, an HTTP failure with its status, or a
network failure. -/
inductive FetchOutcome where
  | ok (tickets : List Nat)
  | httpFailure (status : Nat) (body : String)
  | networkFailure (msg : String)

/-- Modelled from the spec: the entry point
`run_round_robin_assignment(view_id, field_id, agent_ids)` (§6), absent
from the source tree.  Configuration is validated first; only then is the
fetch collaborator called (the second component counts network calls, so
`0` means the failure was detected before any network call).  401/403
fetch responses raise `authError`; any other fetch failure is embedded in
the returned result as an error-tagged job entry; on success the
allocator, batching utility, dispatcher and reporter are composed. -/
def run_round_robin_assignment (view_id field_id : Option Nat) (agent_ids : List Nat)
    (fetch : Nat → FetchOutcome) (update : Nat → Nat → List Nat → Except String String) :
    Except FatalError RunResult × Nat :=
  match view_id, field_id with
  | none, _ => (.error (.configError "view_id unset"), 0)
  | some _, none => (.error (.configError "field_id unset"), 0)
  | some v, some f =>
    if agent_ids = [] then (.error (.configError "agent_ids empty"), 0)
    else
      match fetch v with
      | .httpFailure status body =>
          if status = 401 || status = 403 then (.error (.authError body), 1)
          else (.ok ⟨0, [], [(0, .err body)]⟩, 1)
      | .networkFailure msg => (.ok ⟨0, [], [(0, .err msg)]⟩, 1)
      | .ok tickets =>
          let buckets := allocate tickets agent_ids
          let jobEntries :=
            (buckets.map (fun p =>
              (chunkList 100 p.2).map (fun c =>
                (p.1, match update f p.1 c with
                      | .ok h => JobEntry.job h
                      | .error e => JobEntry.err e)))).flatten
          let distribution :=
            (List.range agent_ids.length).map (fun j =>
              (agent_ids.getD j 0, expected_count tickets.length agent_ids.length j))
          (.ok ⟨tickets.length, distribution, jobEntries⟩, 1 + jobEntries.length)

/-- Embedding of the pagination arithmetic of `display_quickwatch_style_list`
(src/dashboard.py): `total_pages = max(1, (L - 1) // per_page + 1)` with
Python floor division (hence `Int.fdiv`). -/
def total_pages (L per_page : Nat) : Int :=
  max 1 (Int.fdiv ((L : Int) - 1) (per_page : Int) + 1)

/-! ## Theorems -/

/-- C8: every call to the ticketing API authenticates with HTTP Basic,
using the string `{email}/token` as the username and the API token as the
password — the Authorization header built by `create_zendesk_ticket` is
exactly the HTTP Basic header for that username/password pair. -/
theorem zendesk_auth_is_http_basic (email token : String) :
    create_zendesk_auth_header email token
      = basicAuthHeader (email ++ "/token") token := by
  unfold create_zendesk_auth_header basicAuthHeader
  have h : email ++ "/token:" ++ token = email ++ "/token" ++ ":" ++ token := by
    rw [String.append_assoc email "/token" ":",
      show (("/token" : String) ++ ":") = "/token:" from rfl]
  rw [h]

/-- C7 counterexample: the repository's ticketing-API call does not
distinguish 401/403 from other non-2xx statuses — with a valid
configuration, an HTTP 401 response and an HTTP 500 response produce the
identical outcome, so no `AuthError`/`TransportError` distinction by
status code exists. -/
theorem zendesk_status_not_distinguished :
    create_zendesk_ticket ⟨"demo", "me@x.com", "tok"⟩ (fun _ => ⟨401, "body", "err"⟩)
      = create_zendesk_ticket ⟨"demo", "me@x.com", "tok"⟩ (fun _ => ⟨500, "body", "err"⟩) := by
  rfl

/-- C7 (amended): the ticketing-API call of the repository
(`create_zendesk_ticket`) succeeds exactly on HTTP status 201, and every
other status — 401 and 403 included — produces the same uniform failure
shape `(False, response.text)`, depending only on the response text and
not on the status code. -/
theorem create_zendesk_uniform_failure (c : ZendeskConfig) (r1 r2 : HttpResponse)
    (hc : zendeskConfigMissing c = false) :
    ((create_zendesk_ticket c (fun _ => r1)).1.1 = true ↔ r1.status = 201)
    ∧ (r1.status ≠ 201 → r2.status ≠ 201 → r1.text = r2.text →
        create_zendesk_ticket c (fun _ => r1) = create_zendesk_ticket c (fun _ => r2)) := by
  unfold create_zendesk_ticket
  rw [hc]
  constructor
  · by_cases h1 : r1.status = 201 <;> simp [h1]
  · intro h1 h2 h3
    simp [h1, h2, h3]

/-- C7 witness: the amended statement applied to a concrete valid
configuration and to concrete 401 and 500 responses. -/
theorem create_zendesk_uniform_failure_witness :
    ((create_zendesk_ticket ⟨"demo", "me@x.com", "tok"⟩
        (fun _ => ⟨401, "body", "err"⟩)).1.1 = true ↔ (401 : Nat) = 201)
    ∧ create_zendesk_ticket ⟨"demo", "me@x.com", "tok"⟩ (fun _ => ⟨401, "body", "err"⟩)
        = create_zendesk_ticket ⟨"demo", "me@x.com", "tok"⟩ (fun _ => ⟨500, "body", "err"⟩) := by
  have h := create_zendesk_uniform_failure ⟨"demo", "me@x.com", "tok"⟩
    ⟨401, "body", "err"⟩ ⟨500, "body", "err"⟩ (by decide)
  exact ⟨h.1, h.2 (by decide) (by decide) rfl⟩

/-- C4: a transport/HTTP failure on one chunk produces an error-tagged
job entry for that chunk while every other chunk is still processed — the
dispatcher's output has one entry per chunk, each chunk's entry reflecting
only its own upstream outcome; concretely, with three chunks whose 2nd
fails, the result carries job entries for chunks 1 and 3 and an
error-tagged entry for chunk 2. -/
theorem dispatcher_partial_failure_isolation :
    (∀ (chunks : List (List Nat)) (upstream : List Nat → Except String String),
        (dispatch_chunks chunks upstream).length = chunks.length
        ∧ ∀ k c, chunks.get? k = some c →
            (∀ e, upstream c = .error e →
                (dispatch_chunks chunks upstream).get? k = some (.err e))
            ∧ (∀ h, upstream c = .ok h →
                (dispatch_chunks chunks upstream).get? k = some (.job h)))
    ∧ dispatch_chunks [[1], [2], [3]] failSecondUpstream
        = [.job "job-url", .err "boom", .job "job-url"] := by
  constructor
  · intro chunks upstream
    refine ⟨List.length_map _ _, ?_⟩
    intro k c hk
    constructor
    · intro e he
      unfold dispatch_chunks
      rw [List.get?_map, hk]
      simp [he]
    · intro h hh
      unfold dispatch_chunks
      rw [List.get?_map, hk]
      simp [hh]
  · rfl

/-- C4 witness: the isolation property applied to the concrete three-chunk
run whose 2nd chunk fails. -/
theorem dispatcher_partial_failure_witness :
    (dispatch_chunks [[1], [2], [3]] failSecondUpstream).get? 1 = some (.err "boom")
    ∧ (dispatch_chunks [[1], [2], [3]] failSecondUpstream).get? 2 = some (.job "job-url") := by
  have h := dispatcher_partial_failure_isolation.1 [[1], [2], [3]] failSecondUpstream
  exact ⟨(h.2 1 [2] rfl).1 "boom" rfl, (h.2 2 [3] rfl).2 "job-url" rfl⟩

/-- C9: `extract_youtube_id` is total on the scalar domain it receives,
returning an id string or `None`: `None` on NaN and when neither URL
pattern matches, and when the `v=` pattern matches, that match is
returned in preference to the `youtu.be`/`embed` pattern. -/
theorem extract_youtube_id_spec :
    extract_youtube_id .nan = none
    ∧ (∀ s : String, searchWatch s.toList = none → searchShort s.toList = none →
        extract_youtube_id (.str s) = none)
    ∧ (∀ (s : String) (m : List Char), searchWatch s.toList = some m →
        extract_youtube_id (.str s) = some (String.mk m))
    ∧ (∀ v : PyScalar, extract_youtube_id v = none
        ∨ ∃ id, extract_youtube_id v = some id) := by
  refine ⟨rfl, ?_, ?_, ?_⟩
  · intro s h1 h2
    have h1d : searchWatch s.data = none := h1
    have h2d : searchShort s.data = none := h2
    unfold extract_youtube_id
    simp [h1d, h2d]
  · intro s m h
    have hd : searchWatch s.data = some m := h
    unfold extract_youtube_id
    simp [hd]
  · intro v
    match h : extract_youtube_id v with
    | none => exact Or.inl rfl
    | some i => exact Or.inr ⟨i, rfl⟩

/-- C9 witness: on `https://youtu.be/AAA?v=BBB` both URL patterns are
present and the `v=` match `BBB` is the one returned. -/
theorem extract_youtube_id_witness :
    extract_youtube_id (.str "https://youtu.be/AAA?v=BBB") = some "BBB" := by
  have h := extract_youtube_id_spec.2.2.1 "https://youtu.be/AAA?v=BBB"
    (String.toList "BBB") (by decide)
  exact h

/-- The scanning loop finds nothing when no record matches. -/
lemma rowToDeleteLoop_none (vid : String) :
    ∀ (records : List String) (k : Nat),
      (∀ r ∈ records, r ≠ vid) → rowToDeleteLoop vid records k = none := by
  intro records
  induction records with
  | nil => intro k _; rfl
  | cons r rest ih =>
      intro k h
      unfold rowToDeleteLoop
      rw [if_neg (h r (List.mem_cons_self r rest))]
      exact ih (k + 1) (fun x hx => h x (List.mem_cons_of_mem r hx))

/-- The scanning loop returns `k + i + 2` for the first matching index `i`. -/
lemma rowToDeleteLoop_first (vid : String) :
    ∀ (records : List String) (i k : Nat),
      records.get? i = some vid → (∀ j, j < i → records.get? j ≠ some vid) →
      rowToDeleteLoop vid records k = some (k + i + 2) := by
  intro records
  induction records with
  | nil => intro i k h _; simp at h
  | cons r rest ih =>
      intro i k h hfirst
      cases i with
      | zero =>
          have hr : r = vid := by simpa using h
          unfold rowToDeleteLoop
          rw [if_pos hr]
      | succ i =>
          have hr : r ≠ vid := by
            intro hEq
            exact hfirst 0 (Nat.succ_pos i) (by simpa using hEq)
          unfold rowToDeleteLoop
          rw [if_neg hr]
          have := ih i (k + 1) (by simpa using h)
            (fun j hj => by simpa using hfirst (j + 1) (Nat.succ_lt_succ hj))
          rw [this]
          congr 1
          omega

/-- Erasing any index removes at most one element and never adds one. -/
lemma eraseIdx_length_bounds (l : List String) :
    ∀ n, l.length - 1 ≤ (l.eraseIdx n).length ∧ (l.eraseIdx n).length ≤ l.length := by
  induction l with
  | nil => intro n; simp
  | cons x rest ih =>
      intro n
      cases n with
      | zero => simp
      | succ n =>
          have := ih n
          simp only [List.eraseIdx_cons_succ, List.length_cons]
          omega

/-- Unfolding of `remove_from_quickwatch` on a found (truthy) row number. -/
lemma remove_some (sheet : List String) (vid : String) (n : Nat)
    (h : row_to_delete (sheet.drop 1) vid = some n) (hn : n ≠ 0) :
    remove_from_quickwatch sheet vid = (delete_rows sheet n, false) := by
  unfold remove_from_quickwatch
  rw [h]
  simp [hn]

/-- Unfolding of `remove_from_quickwatch` when no row matches. -/
lemma remove_none (sheet : List String) (vid : String)
    (h : row_to_delete (sheet.drop 1) vid = none) :
    remove_from_quickwatch sheet vid = (sheet, true) := by
  unfold remove_from_quickwatch
  rw [h]

/-- C10: `remove_from_quickwatch` deletes at most one row: the first
record (in sheet order) whose `video_id` equals the given id, keeping the
header and every other record unchanged and in order; when no record
matches, the sheet is unchanged and the warning is shown. -/
theorem remove_from_quickwatch_spec (header vid : String) (records : List String) :
    ((¬ vid ∈ records) →
        remove_from_quickwatch (header :: records) vid = (header :: records, true))
    ∧ (∀ i, records.get? i = some vid → (∀ j, j < i → records.get? j ≠ some vid) →
        remove_from_quickwatch (header :: records) vid
          = (header :: records.eraseIdx i, false))
    ∧ records.length ≤ ((remove_from_quickwatch (header :: records) vid).1).length
    ∧ ((remove_from_quickwatch (header :: records) vid).1).length ≤ records.length + 1 := by
  have hdrop : (header :: records).drop 1 = records := rfl
  have hnone : ∀ hnm : ¬ vid ∈ records,
      remove_from_quickwatch (header :: records) vid = (header :: records, true) := by
    intro hnm
    refine remove_none _ _ ?_
    rw [hdrop]
    exact rowToDeleteLoop_none vid records 0 (fun r hr hEq => hnm (hEq ▸ hr))
  have hsome : ∀ i, records.get? i = some vid →
      (∀ j, j < i → records.get? j ≠ some vid) →
      remove_from_quickwatch (header :: records) vid
        = (header :: records.eraseIdx i, false) := by
    intro i h hfirst
    have hfound : row_to_delete ((header :: records).drop 1) vid = some (0 + i + 2) := by
      rw [hdrop]
      exact rowToDeleteLoop_first vid records i 0 h hfirst
    rw [remove_some (header :: records) vid (0 + i + 2) hfound (by omega)]
    unfold delete_rows
    have h1 : 0 + i + 2 - 1 = i + 1 := by omega
    rw [h1, List.eraseIdx_cons_succ]
  refine ⟨hnone, hsome, ?_⟩
  by_cases hm : vid ∈ records
  · have hex : ∃ j, records.get? j = some vid := by
      obtain ⟨i, hi⟩ := List.get_of_mem hm
      exact ⟨i.1, by rw [List.get?_eq_get i.2]; exact congrArg some hi⟩
    obtain ⟨i0, h0, hfirst⟩ :
        ∃ i, records.get? i = some vid ∧ ∀ j, j < i → records.get? j ≠ some vid :=
      ⟨Nat.find hex, Nat.find_spec hex, fun j hj => Nat.find_min hex hj⟩
    rw [hsome i0 h0 hfirst]
    have := eraseIdx_length_bounds records i0
    simp only [List.length_cons]
    omega
  · rw [hnone hm]
    simp only [List.length_cons]
    omega

/-- C10 witness: on a sheet with two records matching `a`, only the first
one (record index 0) is removed and no warning is shown. -/
theorem remove_from_quickwatch_witness :
    remove_from_quickwatch ["hdr", "a", "b", "a"] "a" = (["hdr", "b", "a"], false) := by
  have h := (remove_from_quickwatch_spec "hdr" "a" ["a", "b", "a"]).2.1 0 rfl
    (fun j hj => absurd hj (Nat.not_lt_zero j))
  exact h

/-! ## Allocator arithmetic -/

/-- One-step unfolding of the assigned-position list. -/
lemma bucketIdxs_succ (T N j : Nat) :
    bucketIdxs (T + 1) N j
      = bucketIdxs T N j ++ (if T % N = j then [T] else []) := by
  unfold bucketIdxs
  rw [List.range_succ, List.filter_append]
  congr 1
  by_cases h : T % N = j
  · simp [List.filter, h]
  · have hb : (T % N == j) = false := beq_eq_false_iff_ne.mpr h
    simp [List.filter, hb, h]

/-- Successor division and remainder, split on whether the remainder wraps. -/
lemma succ_divmod (N q r T : Nat) (hN : 0 < N) (hT : T = N * q + r) :
    (r + 1 = N → (T + 1) / N = q + 1 ∧ (T + 1) % N = 0)
    ∧ (r + 1 < N → (T + 1) / N = q ∧ (T + 1) % N = r + 1) := by
  constructor
  · intro hw
    have hs : T + 1 = N * (q + 1) := by
      calc T + 1 = N * q + r + 1 := by rw [hT]
        _ = N * q + (r + 1) := by rw [Nat.add_assoc]
        _ = N * q + N := by rw [hw]
        _ = N * (q + 1) := by rw [Nat.mul_succ]
    constructor
    · rw [hs, Nat.mul_div_cancel_left _ hN]
    · rw [hs, Nat.mul_mod_right]
  · intro hlt
    have hs : T + 1 = N * q + (r + 1) := by rw [hT, Nat.add_assoc]
    constructor
    · rw [hs, Nat.mul_add_div hN, Nat.div_eq_of_lt hlt]
      rfl
    · rw [hs, Nat.mul_add_mod, Nat.mod_eq_of_lt hlt]

/-- The positions assigned to agent index `j` are exactly
`j, j + N, j + 2N, …`, of count `T / N` plus one more when `j < T % N`. -/
lemma bucketIdxs_eq_map_range (N : Nat) (hN : 0 < N) (j : Nat) (hj : j < N) :
    ∀ T, bucketIdxs T N j
      = (List.range (T / N + if j < T % N then 1 else 0)).map (fun k => j + k * N) := by
  intro T
  induction T with
  | zero =>
      simp [bucketIdxs]
  | succ T ih =>
      rw [bucketIdxs_succ, ih]
      obtain ⟨q, r, hr, hT, hdiv, hmod⟩ :
          ∃ q r, r < N ∧ T = N * q + r ∧ T / N = q ∧ T % N = r :=
        ⟨T / N, T % N, Nat.mod_lt T hN, (Nat.div_add_mod T N).symm, rfl, rfl⟩
      rw [hdiv, hmod]
      have hsucc := succ_divmod N q r T hN hT
      by_cases hw : r + 1 = N
      · obtain ⟨hd, hm⟩ := hsucc.1 hw
        rw [hd, hm]
        by_cases hrj : r = j
        · rw [if_pos hrj, if_neg (by omega : ¬ j < r), if_neg (by omega : ¬ j < 0)]
          rw [Nat.add_zero, Nat.add_zero, List.range_succ, List.map_append]
          congr 1
          simp only [List.map_cons, List.map_nil]
          congr 1
          rw [hT, hrj, Nat.mul_comm]
          exact (Nat.add_comm j (q * N)).symm
        · rw [if_neg hrj, if_pos (by omega : j < r), if_neg (by omega : ¬ j < 0)]
          rw [List.append_nil]
      · have hlt : r + 1 < N := by omega
        obtain ⟨hd, hm⟩ := hsucc.2 hlt
        rw [hd, hm]
        by_cases hrj : r = j
        · rw [if_pos hrj, if_neg (by omega : ¬ j < r), if_pos (by omega : j < r + 1)]
          rw [Nat.add_zero, List.range_succ, List.map_append]
          congr 1
          simp only [List.map_cons, List.map_nil]
          congr 1
          rw [hT, hrj, Nat.mul_comm]
          exact (Nat.add_comm j (q * N)).symm
        · rw [if_neg hrj, List.append_nil]
          congr 2
          by_cases hjr : j < r
          · rw [if_pos hjr, if_pos (by omega : j < r + 1)]
          · rw [if_neg hjr, if_neg (by omega : ¬ j < r + 1)]

/-- Size of the position list of agent index `j`. -/
lemma length_bucketIdxs (N : Nat) (hN : 0 < N) (j : Nat) (hj : j < N) (T : Nat) :
    (bucketIdxs T N j).length = T / N + if j < T % N then 1 else 0 := by
  rw [bucketIdxs_eq_map_range N hN j hj T, List.length_map, List.length_range]

/-- Size of the bucket of agent index `j`. -/
lemma length_bucketSpec (ts : List Nat) (N : Nat) (hN : 0 < N) (j : Nat) (hj : j < N) :
    (bucketSpec ts N j).length = ts.length / N + if j < ts.length % N then 1 else 0 := by
  unfold bucketSpec
  rw [List.length_map, length_bucketIdxs N hN j hj]

/-- Membership in the assigned-position list. -/
lemma mem_bucketIdxs (T N j i : Nat) :
    i ∈ bucketIdxs T N j ↔ i < T ∧ i % N = j := by
  unfold bucketIdxs
  rw [List.mem_filter, List.mem_range]
  simp

/-- The `k`-th slot of a bucket exists exactly when the ticket position
`j + k * N` exists. -/
lemma lt_bucket_count_iff (T N : Nat) (hN : 0 < N) (j : Nat) (hj : j < N) (k : Nat) :
    k < T / N + (if j < T % N then 1 else 0) ↔ j + k * N < T := by
  constructor
  · intro hk
    have hmem : j + k * N ∈ bucketIdxs T N j := by
      rw [bucketIdxs_eq_map_range N hN j hj T]
      exact List.mem_map.mpr ⟨k, List.mem_range.mpr hk, rfl⟩
    exact ((mem_bucketIdxs T N j _).mp hmem).1
  · intro hlt
    have hmem : j + k * N ∈ bucketIdxs T N j := by
      rw [mem_bucketIdxs]
      refine ⟨hlt, ?_⟩
      rw [Nat.add_mul_mod_self_right]
      exact Nat.mod_eq_of_lt hj
    rw [bucketIdxs_eq_map_range N hN j hj T] at hmem
    obtain ⟨k2, hk2, hEq⟩ := List.mem_map.mp hmem
    have hkk : k2 = k :=
      Nat.eq_of_mul_eq_mul_right hN (Nat.add_left_cancel hEq)
    rw [← hkk]
    exact List.mem_range.mp hk2

/-- For in-range indices, `get?` yields the default-free `getD` value. -/
lemma get?_eq_some_getD (l : List Nat) (n : Nat) (h : n < l.length) :
    l.get? n = some (l.getD n 0) := by
  rw [List.getD_eq_get?, List.get?_eq_get h]
  rfl

/-- Slot `k` of the bucket of agent index `j` is the ticket at fetch
position `j + k * N`, when that position exists. -/
lemma get?_bucketSpec (ts : List Nat) (N : Nat) (hN : 0 < N) (j : Nat) (hj : j < N) (k : Nat) :
    (bucketSpec ts N j).get? k
      = if j + k * N < ts.length then some (ts.getD (j + k * N) 0) else none := by
  unfold bucketSpec
  rw [bucketIdxs_eq_map_range N hN j hj, List.map_map]
  by_cases hk : k < ts.length / N + (if j < ts.length % N then 1 else 0)
  · rw [List.get?_map, List.get?_range hk, if_pos ((lt_bucket_count_iff ts.length N hN j hj k).mp hk)]
    rfl
  · rw [List.get?_eq_none.mpr, if_neg (fun hc => hk ((lt_bucket_count_iff ts.length N hN j hj k).mpr hc))]
    rw [List.length_map, List.length_range]
    omega

/-- The allocator pairs the agent at index `j` with its bucket. -/
lemma get?_allocate (ts agents : List Nat) (j : Nat) (hj : j < agents.length) :
    (allocate ts agents).get? j
      = some (agents.getD j 0, bucketSpec ts agents.length j) := by
  unfold allocate
  rw [List.get?_map, List.get?_range hj]
  rfl

/-- Sum of `base + (1 if j < r else 0)` over `j < m`. -/
lemma sum_map_range_base_ite (b r : Nat) :
    ∀ m, ((List.range m).map (fun j => b + if j < r then 1 else 0)).sum
      = m * b + min m r := by
  intro m
  induction m with
  | zero => simp
  | succ m ih =>
      rw [List.range_succ, List.map_append, List.sum_append, ih]
      simp only [List.map_cons, List.map_nil, List.sum_cons, List.sum_nil]
      rw [Nat.succ_mul]
      by_cases h : m < r
      · rw [if_pos h, Nat.min_eq_left (Nat.le_of_lt h), Nat.min_eq_left h]
        generalize m * b = A
        omega
      · rw [if_neg h, Nat.min_eq_right (by omega), Nat.min_eq_right (by omega)]
        generalize m * b = A
        omega

/-- C1: the allocator assigns the ticket at fetch position `i` to
`agent_ids[i mod N]`, each bucket listing its tickets in fetch order
(the ticket at position `i` is slot `i / N` of bucket `i mod N`);
concretely, `[10,11,12,13,14]` over agents `[1,2]` gives agent 1 the
bucket `[10,12,14]` and agent 2 the bucket `[11,13]`. -/
theorem allocator_round_robin_assignment :
    (∀ (ts agents : List Nat), agents ≠ [] → ∀ i, i < ts.length →
        ∃ a b, (allocate ts agents).get? (i % agents.length) = some (a, b)
          ∧ agents.get? (i % agents.length) = some a
          ∧ b.get? (i / agents.length) = ts.get? i)
    ∧ allocate [10, 11, 12, 13, 14] [1, 2] = [(1, [10, 12, 14]), (2, [11, 13])] := by
  constructor
  · intro ts agents hne i hi
    have hN : 0 < agents.length := List.length_pos.mpr hne
    have hjN : i % agents.length < agents.length := Nat.mod_lt i hN
    refine ⟨agents.getD (i % agents.length) 0, bucketSpec ts agents.length (i % agents.length),
      get?_allocate ts agents _ hjN, (get?_eq_some_getD agents _ hjN).symm ▸ rfl, ?_⟩
    rw [get?_bucketSpec ts agents.length hN (i % agents.length) hjN (i / agents.length)]
    have hidx : i % agents.length + (i / agents.length) * agents.length = i := by
      rw [Nat.mul_comm]
      exact Nat.mod_add_div i agents.length
    rw [hidx, if_pos hi, get?_eq_some_getD ts i hi]
  · rfl

/-- C1 witness: the round-robin rule applied to ticket position 2 of the
concrete scenario (it lands in slot 1 of agent 1's bucket). -/
theorem allocator_round_robin_witness :
    ∃ a b, (allocate [10, 11, 12, 13, 14] [1, 2]).get? (2 % 2) = some (a, b)
      ∧ [1, 2].get? (2 % 2) = some a
      ∧ b.get? (2 / 2) = [10, 11, 12, 13, 14].get? 2 :=
  allocator_round_robin_assignment.1 [10, 11, 12, 13, 14] [1, 2] (by decide) 2 (by decide)

/-- C2: for every ticket list and non-empty agent list, the bucket sizes
sum to the total ticket count, any two bucket sizes differ by at most 1,
and each fetched ticket position lands in exactly the bucket of agent
index `i mod N` and in no other bucket. -/
theorem allocator_balanced_partition :
    ∀ (ts agents : List Nat), agents ≠ [] →
      ((allocate ts agents).map (fun p => p.2.length)).sum = ts.length
      ∧ (∀ p ∈ allocate ts agents, ∀ q ∈ allocate ts agents,
          p.2.length ≤ q.2.length + 1)
      ∧ (∀ i, i < ts.length → ∀ j, j < agents.length →
          (i ∈ bucketIdxs ts.length agents.length j ↔ j = i % agents.length)) := by
  intro ts agents hne
  have hN : 0 < agents.length := List.length_pos.mpr hne
  refine ⟨?_, ?_, ?_⟩
  · unfold allocate
    rw [List.map_map]
    rw [List.map_congr_left (fun j hj => by
      simp only [Function.comp]
      exact length_bucketSpec ts agents.length hN j (List.mem_range.mp hj))]
    rw [sum_map_range_base_ite (ts.length / agents.length) (ts.length % agents.length)
      agents.length]
    rw [Nat.min_eq_right (Nat.le_of_lt (Nat.mod_lt ts.length hN))]
    exact Nat.div_add_mod ts.length agents.length
  · intro p hp q hq
    unfold allocate at hp hq
    obtain ⟨jp, hjp, hpe⟩ := List.mem_map.mp hp
    obtain ⟨jq, hjq, hqe⟩ := List.mem_map.mp hq
    rw [← hpe, ← hqe]
    simp only
    rw [length_bucketSpec ts agents.length hN jp (List.mem_range.mp hjp),
        length_bucketSpec ts agents.length hN jq (List.mem_range.mp hjq)]
    generalize ts.length / agents.length = B
    by_cases h1 : jp < ts.length % agents.length
    · by_cases h2 : jq < ts.length % agents.length
      · rw [if_pos h1, if_pos h2]
        omega
      · rw [if_pos h1, if_neg h2]
    · by_cases h2 : jq < ts.length % agents.length
      · rw [if_neg h1, if_pos h2]
        omega
      · rw [if_neg h1, if_neg h2]
        omega
  · intro i hi j hj
    rw [mem_bucketIdxs]
    constructor
    · rintro ⟨-, h⟩
      exact h.symm
    · intro h
      exact ⟨hi, h.symm⟩

/-- C2 witness: in the concrete scenario the bucket sizes `[3, 2]` sum to
the ticket total 5. -/
theorem allocator_balanced_witness :
    ((allocate [10, 11, 12, 13, 14] [1, 2]).map (fun p => p.2.length)).sum = 5 :=
  (allocator_balanced_partition [10, 11, 12, 13, 14] [1, 2] (by decide)).1

/-- C3: the Distribution Reporter's `expected_count` — `base + 1` for the
first `remainder` agents in list order, `base` for the rest — equals the
actual bucket size the round-robin allocator produces for that agent. -/
theorem reporter_matches_allocator :
    ∀ (ts agents : List Nat), agents ≠ [] → ∀ j, j < agents.length →
      expected_count ts.length agents.length j
        = (bucketSpec ts agents.length j).length := by
  intro ts agents hne j hj
  have hN : 0 < agents.length := List.length_pos.mpr hne
  rw [length_bucketSpec ts agents.length hN j hj]
  unfold expected_count
  by_cases h : j < ts.length % agents.length
  · rw [if_pos h, if_pos h]
  · rw [if_neg h, if_neg h, Nat.add_zero]

/-- C3 witness: in the concrete scenario the reporter's expected counts
3 and 2 equal the allocator's actual bucket sizes. -/
theorem reporter_matches_allocator_witness :
    expected_count 5 2 0 = (bucketSpec [10, 11, 12, 13, 14] 2 0).length
    ∧ expected_count 5 2 1 = (bucketSpec [10, 11, 12, 13, 14] 2 1).length :=
  ⟨reporter_matches_allocator [10, 11, 12, 13, 14] [1, 2] (by decide) 0 (by decide),
    reporter_matches_allocator [10, 11, 12, 13, 14] [1, 2] (by decide) 1 (by decide)⟩

/-! ## Chunking -/

/-- Chunking produces no chunks exactly on the empty input. -/
lemma chunkList_eq_nil_iff (S : Nat) (l : List Nat) :
    chunkList S l = [] ↔ l = [] := by
  cases l with
  | nil => simp [chunkList]
  | cons x rest => simp [chunkList]

/-- Number of chunks: the ceiling of `length / size`. -/
lemma chunkList_length (S : Nat) (hS : 0 < S) :
    ∀ l : List Nat, (chunkList S l).length = (l.length + S - 1) / S := by
  intro l
  induction l using chunkList.induct S with
  | case1 => simp [chunkList, Nat.div_eq_of_lt, hS]
  | case2 x rest ih =>
      rw [chunkList]
      simp only [List.length_cons, List.length_drop] at ih ⊢
      rw [ih]
      have hR : (rest.length + 1 + S - 1) / S = rest.length / S + 1 := by
        have h1 : rest.length + 1 + S - 1 = rest.length + S := by omega
        rw [h1, Nat.add_div_right _ hS]
      rw [hR]
      have hL : (rest.length - (S - 1) + S - 1) / S = rest.length / S := by
        by_cases hc : S - 1 ≤ rest.length
        · congr 1
          omega
        · have h0 : rest.length - (S - 1) = 0 := by omega
          rw [h0, Nat.zero_add]
          rw [Nat.div_eq_of_lt (by omega), Nat.div_eq_of_lt (by omega)]
      rw [hL]

/-- Every chunk has at most `size` elements. -/
lemma chunkList_size_le (S : Nat) (hS : 0 < S) :
    ∀ l : List Nat, ∀ c ∈ chunkList S l, c.length ≤ S := by
  intro l
  induction l using chunkList.induct S with
  | case1 => intro c hc; simp [chunkList] at hc
  | case2 x rest ih =>
      intro c hc
      rw [chunkList] at hc
      rcases List.mem_cons.mp hc with h | h
      · rw [h]
        simp only [List.length_cons, List.length_take]
        omega
      · exact ih c h

/-- Every chunk except possibly the last has exactly `size` elements. -/
lemma chunkList_dropLast_size (S : Nat) (hS : 0 < S) :
    ∀ l : List Nat, ∀ c ∈ (chunkList S l).dropLast, c.length = S := by
  intro l
  induction l using chunkList.induct S with
  | case1 => intro c hc; simp [chunkList] at hc
  | case2 x rest ih =>
      intro c hc
      rw [chunkList] at hc
      cases htail : chunkList S (rest.drop (S - 1)) with
      | nil =>
          rw [htail] at hc
          simp at hc
      | cons d ds =>
          rw [htail, List.dropLast_cons_of_ne_nil (by simp)] at hc
          rcases List.mem_cons.mp hc with h | h
          · have hne : rest.drop (S - 1) ≠ [] := by
              intro h0
              rw [h0] at htail
              simp [chunkList] at htail
            have hlen : S - 1 < rest.length := by
              by_contra hge
              exact hne (List.drop_eq_nil_of_le (by omega))
            rw [h]
            simp only [List.length_cons, List.length_take]
            omega
          · rw [← htail] at h
            exact ih c h

/-- C5: chunking a sequence of length `L` with positive chunk size `S`
produces exactly `ceil(L/S)` chunks, each of size exactly `S` except
possibly the last (never larger than `S`, hence never above the batch
limit 100 when `S = 100`); the pagination arithmetic of
`display_quickwatch_style_list` computes the same ceiling for the
non-empty lists it is applied to. -/
theorem chunking_ceil_and_bound :
    (∀ (l : List Nat) (S : Nat), 0 < S →
        (chunkList S l).length = (l.length + S - 1) / S
        ∧ (∀ c ∈ (chunkList S l).dropLast, c.length = S)
        ∧ (∀ c ∈ chunkList S l, c.length ≤ S)
        ∧ (S = 100 → ∀ c ∈ chunkList S l, c.length ≤ 100))
    ∧ (∀ L per_page : Nat, 0 < L → 0 < per_page →
        total_pages L per_page = (((L + per_page - 1) / per_page : Nat) : Int)) := by
  constructor
  · intro l S hS
    refine ⟨chunkList_length S hS l, chunkList_dropLast_size S hS l,
      chunkList_size_le S hS l, ?_⟩
    intro h100 c hc
    rw [← h100]
    exact chunkList_size_le S hS l c hc
  · intro L S hL hS
    unfold total_pages
    have hcast : (L : Int) - 1 = ((L - 1 : Nat) : Int) := by
      omega
    rw [hcast, ← Int.ofNat_fdiv]
    have hge : (1 : Int) ≤ (((L - 1) / S : Nat) : Int) + 1 := by
      have := Int.ofNat_nonneg ((L - 1) / S)
      omega
    rw [max_eq_right hge]
    have hnat : (L - 1) / S + 1 = (L + S - 1) / S := by
      rw [← Nat.add_div_right _ hS]
      congr 1
      omega
    exact_mod_cast hnat

/-- C5 witness: the chunk count equals the ceiling on a concrete 5-element
list with size 2, and the pagination formula agrees on 25 rows of 10. -/
theorem chunking_witness :
    (chunkList 2 [1, 2, 3, 4, 5]).length = (5 + 2 - 1) / 2
    ∧ total_pages 25 10 = (((25 + 10 - 1) / 10 : Nat) : Int) :=
  ⟨(chunking_ceil_and_bound.1 [1, 2, 3, 4, 5] 2 (by decide)).1,
    chunking_ceil_and_bound.2 25 10 (by decide) (by decide)⟩

/-! ## Entry point -/

/-- C6: the entry point raises `configError` when the view id, field id
or agent list is unset/empty, detected before any network call (the
network-call count is 0); apart from `configError` and `authError` — the
latter exactly on a 401/403 fetch response — it never raises: every other
fetch outcome, HTTP or network failures included, yields an `.ok` run
result. -/
theorem entry_point_fatal_errors :
    ∀ (vi fi : Option Nat) (agents : List Nat) (fetch : Nat → FetchOutcome)
      (update : Nat → Nat → List Nat → Except String String),
      ((vi = none ∨ fi = none ∨ agents = []) →
        ∃ m, run_round_robin_assignment vi fi agents fetch update
          = (.error (.configError m), 0))
      ∧ (∀ v s b, vi = some v → (∃ f, fi = some f) → agents ≠ [] →
          fetch v = .httpFailure s b →
          ((s = 401 ∨ s = 403) →
              run_round_robin_assignment vi fi agents fetch update
                = (.error (.authError b), 1))
          ∧ (¬(s = 401 ∨ s = 403) →
              ∃ res n, run_round_robin_assignment vi fi agents fetch update
                = (.ok res, n)))
      ∧ (∀ v m, vi = some v → (∃ f, fi = some f) → agents ≠ [] →
          fetch v = .networkFailure m →
          ∃ res n, run_round_robin_assignment vi fi agents fetch update = (.ok res, n))
      ∧ (∀ v ts, vi = some v → (∃ f, fi = some f) → agents ≠ [] →
          fetch v = .ok ts →
          ∃ res n, run_round_robin_assignment vi fi agents fetch update = (.ok res, n)) := by
  intro vi fi agents fetch update
  refine ⟨?_, ?_, ?_, ?_⟩
  · rintro (h | h | h)
    · rw [h]
      cases fi with
      | none => exact ⟨"view_id unset", rfl⟩
      | some f => exact ⟨"view_id unset", rfl⟩
    · rw [h]
      cases vi with
      | none => exact ⟨"view_id unset", rfl⟩
      | some v => exact ⟨"field_id unset", rfl⟩
    · cases vi with
      | none => exact ⟨"view_id unset", rfl⟩
      | some v =>
          cases fi with
          | none => exact ⟨"field_id unset", rfl⟩
          | some f =>
              refine ⟨"agent_ids empty", ?_⟩
              simp only [run_round_robin_assignment]
              rw [if_pos h]
  · rintro v s b hv ⟨f, hf⟩ hne hfetch
    subst hv
    subst hf
    simp only [run_round_robin_assignment, hne, if_false, hfetch]
    constructor
    · intro hs
      rcases hs with h | h <;> simp [h]
    · intro hs
      have h1 : ¬ s = 401 := fun h => hs (Or.inl h)
      have h2 : ¬ s = 403 := fun h => hs (Or.inr h)
      rw [decide_eq_false h1, decide_eq_false h2]
      exact ⟨_, _, rfl⟩
  · rintro v m hv ⟨f, hf⟩ hne hfetch
    subst hv
    subst hf
    simp only [run_round_robin_assignment, hne, if_false, hfetch]
    exact ⟨_, _, rfl⟩
  · rintro v ts hv ⟨f, hf⟩ hne hfetch
    subst hv
    subst hf
    simp only [run_round_robin_assignment, hne, if_false, hfetch]
    exact ⟨_, _, rfl⟩

/-- C6 witness: an unset view id is rejected as a configuration error
with zero network calls, for a concrete fetch/update pair. -/
theorem entry_point_fatal_errors_witness :
    ∃ m, run_round_robin_assignment none (some 7) [1, 2]
        (fun _ => .ok []) (fun _ _ _ => .ok "job-url")
      = (.error (.configError m), 0) :=
  (entry_point_fatal_errors none (some 7) [1, 2]
    (fun _ => .ok []) (fun _ _ _ => .ok "job-url")).1 (Or.inl rfl)

end Dashboard
